import Mathlib

/-!
Verification development for the camlistore storage and sharing core.

The development shallowly embeds two kinds of material:
* code present in the repository sources, translated directly
  (the low-level config generator and the picasa importer run logic);
* components whose implementation is not part of the source tree but is
  described by the specification (content-addressed backends, the replica,
  conditional and sync-queue composites, the share authorizer and the
  timing gate).  Those definitions carry a doc comment starting with
  the words Modelled from the spec.
-/

namespace Camlistore

/-- Content addresses are algorithm-tagged digest strings such as
sha1-0e5e60f367cc8156ae48198c496b2b2ebdf5313d. -/
abbrev Addr := String

/-- Blob contents, as a byte string. -/
abbrev Bytes := String

/-- Lookup in an association list keyed by strings.  Models reading a Go
map entry. -/
def slookup {α : Type} : List (String × α) → String → Option α
  | [], _ => none
  | (k, v) :: rest, key => if k = key then some v else slookup rest key

/-- Assignment into an association list keyed by strings: replaces the
first binding of the key, or appends a new binding.  Models writing a Go
map entry. -/
def sset {α : Type} : List (String × α) → String → α → List (String × α)
  | [], key, v => [(key, v)]
  | (k, w) :: rest, key, v =>
    if k = key then (key, v) :: rest else (k, w) :: sset rest key v

theorem slookup_sset_self {α : Type} (l : List (String × α)) (k : String) (v : α) :
    slookup (sset l k v) k = some v := by
  induction l with
  | nil => simp [sset, slookup]
  | cons hd tl ih =>
    obtain ⟨k0, v0⟩ := hd
    by_cases h : k0 = k
    · simp [sset, h, slookup]
    · simp [sset, h, slookup, ih]

theorem slookup_sset_ne {α : Type} (l : List (String × α)) (k k' : String) (v : α)
    (h : k' ≠ k) : slookup (sset l k v) k' = slookup l k' := by
  induction l with
  | nil => simp [sset, slookup, Ne.symm h]
  | cons hd tl ih =>
    obtain ⟨k0, v0⟩ := hd
    by_cases h0 : k0 = k
    · subst h0
      simp [sset, slookup, Ne.symm h]
    · simp [sset, h0, slookup, ih]

theorem sset_sset_self {α : Type} (l : List (String × α)) (k : String) (v : α) :
    sset (sset l k v) k v = sset l k v := by
  induction l with
  | nil => simp [sset]
  | cons hd tl ih =>
    obtain ⟨k0, v0⟩ := hd
    by_cases h : k0 = k
    · simp [sset, h]
    · simp [sset, h, ih]

/-- Modelled from the spec: a primitive backend is a mapping from content
addresses to blob bytes (spec section 4.2); the implementation of the
storage backends is not part of the source tree. -/
def Backend := List (Addr × Bytes)

/-- Modelled from the spec: Store computes the address of the bytes itself
and records the blob under that address (spec section 4.2). -/
def bstore (compute : Bytes → Addr) (b : Backend) (c : Bytes) : Backend × Addr :=
  (sset b (compute c) c, compute c)

/-- Modelled from the spec: Fetch returns the bytes stored at an address,
or NotFound (spec section 4.2). -/
def bfetch (b : Backend) (a : Addr) : Option Bytes :=
  slookup b a

/-- Modelled from the spec: the outcome of a replica fan-out store
(spec sections 4.3 and 7). -/
inductive ReplicaOutcome where
  | ok (addr : Addr)
  | partialReplicaFailure
  | allFailed
deriving DecidableEq, Repr

/-- Modelled from the spec: apply the fan-out write of a replica store to
the child backends, starting the child index at i.  A failing child
(including one that timed out) is left untouched; a succeeding child
records the blob.  There is no rollback step anywhere. -/
def replicaWrite (compute : Bytes → Addr) (c : Bytes) (fails : Nat → Bool) :
    Nat → List Backend → List Backend
  | _, [] => []
  | i, b :: rest =>
    (if fails i then b else sset b (compute c) c) :: replicaWrite compute c fails (i + 1) rest

/-- Modelled from the spec: replica Store fans out to every child backend
and waits for all; all successes return the common address, a strict
subset of failures is PartialReplicaFailure, and the write is reported
failed while the succeeding children keep their bytes (spec section 4.3). -/
def replicaStore (compute : Bytes → Addr) (children : List Backend)
    (fails : Nat → Bool) (c : Bytes) : List Backend × ReplicaOutcome :=
  let children' := replicaWrite compute c fails 0 children
  let idxs := List.range children.length
  let outcome :=
    if idxs.any (fun i => fails i) then
      (if idxs.all (fun i => fails i) then ReplicaOutcome.allFailed
       else ReplicaOutcome.partialReplicaFailure)
    else ReplicaOutcome.ok (compute c)
  (children', outcome)

theorem replicaWrite_length (compute : Bytes → Addr) (c : Bytes) (fails : Nat → Bool)
    (i : Nat) (l : List Backend) :
    (replicaWrite compute c fails i l).length = l.length := by
  induction l generalizing i with
  | nil => rfl
  | cons b rest ih => simp [replicaWrite, ih]

theorem replicaWrite_getElem (compute : Bytes → Addr) (c : Bytes) (fails : Nat → Bool)
    (i : Nat) (l : List Backend) (k : Nat) :
    (replicaWrite compute c fails i l)[k]? =
      (l[k]?).map (fun b => if fails (i + k) then b else sset b (compute c) c) := by
  induction l generalizing i k with
  | nil => simp [replicaWrite]
  | cons b rest ih =>
    cases k with
    | zero => simp [replicaWrite]
    | succ k' =>
      have := ih (i + 1) k'
      simp only [replicaWrite, List.getElem?_cons_succ, this]
      have harith : i + 1 + k' = i + (k' + 1) := by omega
      rw [harith]

/-- Modelled from the spec: conditional routing picks the write backend as
a pure, deterministic function of the bytes alone (spec section 4.3). -/
def condRoute (pred : Bytes → Bool) (thenB elseB : String) (c : Bytes) : String :=
  if pred c then thenB else elseB

/-- Modelled from the spec: a conditional Store evaluates the predicate on
the bytes and writes to the chosen backend, leaving every other named
backend unchanged (spec section 4.3).  The state maps backend names to
primitive stores. -/
def condStore (pred : Bytes → Bool) (thenB elseB : String) (compute : Bytes → Addr)
    (σ : String → Backend) (c : Bytes) : String → Backend :=
  fun n => if n = condRoute pred thenB elseB c then sset (σ n) (compute c) c else σ n

/-- Modelled from the spec: a conditional Fetch always delegates to the
read backend, regardless of where the blob was written (spec section 4.3). -/
def condFetch (readB : String) (σ : String → Backend) (a : Addr) : Option Bytes :=
  bfetch (σ readB) a

/-- Modelled from the spec: write a blob into every named backend of a
list, as the replica inside the conditional then-branch does. -/
def writeTo (names : List String) (compute : Bytes → Addr)
    (σ : String → Backend) (c : Bytes) : String → Backend :=
  fun n => if n ∈ names then sset (σ n) (compute c) c else σ n

/-- Modelled from the spec: the write side of the generated conditional
topology, with the then-branch replicating to the listed backends and the
else-branch writing to a single backend. -/
def topoWrite (pred : Bytes → Bool) (thenNames : List String) (elseName : String)
    (compute : Bytes → Addr) (σ : String → Backend) (c : Bytes) : String → Backend :=
  if pred c then writeTo thenNames compute σ c else writeTo [elseName] compute σ c

/-- JSON-like configuration values, embedding the Go
map[string]interface{} trees built by the serverinit package. -/
inductive JVal where
  | str (s : String)
  | jbool (b : Bool)
  | arr (elems : List JVal)
  | obj (fields : List (String × JVal))

/-- A jsonconfig.Obj: a Go map from strings to configuration values. -/
abbrev Obj := List (String × JVal)

/-- Field access in a configuration object. -/
def jfield (v : JVal) (k : String) : Option JVal :=
  match v with
  | JVal.obj fields => slookup fields k
  | _ => none

/-- Walk a path of field names below an optional configuration value. -/
def jpathGet : Option JVal → List String → Option JVal
  | v, [] => v
  | some v, k :: rest => jpathGet (jfield v k) rest
  | none, _ => none

/-- The parameters derived from the high-level user config that are read
by genLowLevelPrefixes, mirroring the Go struct configPrefixesParams from
the serverinit package.  The searchOwner blob.Ref is kept as its string
form. -/
structure configPrefixesParams where
  secretRing : String
  keyId : String
  haveIndex : Bool
  haveSQLite : Bool
  blobPath : String
  packBlobs : Bool
  searchOwner : String
  shareHandlerPath : String
  flickr : String
  picasa : String
  memoryIndex : Bool
  indexFileDir : String
deriving Repr

/-- Go filepath.Join restricted to the shapes used in this file: joining a
directory with one more component, avoiding a duplicate separator. -/
def joinPath (a b : String) : String :=
  if a = "" then b
  else if b.startsWith "/" then a ++ b
  else a ++ "/" ++ b

/-- The Go helper setMap from the serverinit package, specialised to
string keys: assigns through a path of nested map keys.  Every call site
passes a path whose objects already exist; a missing or non-object node is
left unchanged where Go would panic on the type assertion. -/
def setMapPath (m : Obj) : List String → JVal → Obj
  | [], _ => m
  | [k], v => sset m k v
  | k :: k' :: rest, v =>
    match slookup m k with
    | some (JVal.obj inner) => sset m k (JVal.obj (setMapPath inner (k' :: rest) v))
    | _ => m

/-- The sync handler arguments generated for the to-index sync handler
(lines 494 to 521 of the serverinit source). -/
def syncArgsOf (p : configPrefixesParams) : Obj :=
  let base : Obj := [("from", JVal.str "/bs/"), ("to", JVal.str "/index/")]
  if p.blobPath = "" ∧ p.indexFileDir = "" then
    -- stub sync handler kept registered so it can be referred to
    sset base "idle" (JVal.jbool true)
  else
    let dir := if p.blobPath = "" then p.indexFileDir else p.blobPath
    let typ := if p.haveSQLite then "sqlite" else "kv"
    sset base "queue"
      (JVal.obj [("type", JVal.str typ),
                 ("file", JVal.str (joinPath dir ("sync-to-index-queue." ++ typ)))])

/-- The replica entry registered at /bs-and-index/ (lines 527 to 532 of
the serverinit source). -/
def bsAndIndexEntry : JVal :=
  JVal.obj [("handler", JVal.str "storage-replica"),
            ("handlerArgs",
              JVal.obj [("backends", JVal.arr [JVal.str "/bs/", JVal.str "/index/"])])]

/-- The conditional entry registered at /bs-and-maybe-also-index/ (lines
534 to 544 of the serverinit source). -/
def bsAndMaybeEntry : JVal :=
  JVal.obj [("handler", JVal.str "storage-cond"),
            ("handlerArgs",
              JVal.obj [("write",
                          JVal.obj [("if", JVal.str "isSchema"),
                                    ("then", JVal.str "/bs-and-index/"),
                                    ("else", JVal.str "/bs/")]),
                        ("read", JVal.str "/bs/")])]

/-- The search entry registered at /my-search/ (lines 546 to 556 of the
serverinit source). -/
def mySearchEntry (p : configPrefixesParams) : JVal :=
  let searchArgs : Obj := [("index", JVal.str "/index/"), ("owner", JVal.str p.searchOwner)]
  let searchArgs := if p.memoryIndex then sset searchArgs "slurpToMemory" (JVal.jbool true) else searchArgs
  JVal.obj [("handler", JVal.str "search"), ("handlerArgs", JVal.obj searchArgs)]

/-- Everything genLowLevelPrefixes registers before its final haveIndex
block (lines 403 to 492 of the serverinit source).  The Go importerArgs
map is shared by reference, so the flickr and picasa entries added later
in the source are visible through the /importer/ entry; the map is
therefore assembled before it is stored. -/
def genBase (p : configPrefixesParams) (ownerName : String) : Obj :=
  let root := if p.haveIndex then "/bs-and-maybe-also-index/" else "/bs/"
  let pubKeyDest := if p.haveIndex then "/bs-and-index/" else "/bs/"
  let rootArgs : Obj :=
    [("stealth", JVal.jbool false),
     ("blobRoot", JVal.str root),
     ("statusRoot", JVal.str "/status/")]
  let rootArgs := if ownerName = "" then rootArgs else sset rootArgs "ownerName" (JVal.str ownerName)
  let m : Obj := sset [] "/" (JVal.obj [("handler", JVal.str "root"), ("handlerArgs", JVal.obj rootArgs)])
  let m := if p.haveIndex then setMapPath m ["/", "handlerArgs", "searchRoot"] (JVal.str "/my-search/") else m
  let m := sset m "/setup/" (JVal.obj [("handler", JVal.str "setup")])
  let m := sset m "/status/" (JVal.obj [("handler", JVal.str "status")])
  let importerArgs : Obj := []
  let importerArgs := if p.flickr = "" then importerArgs
    else sset importerArgs "flickr" (JVal.obj [("clientSecret", JVal.str p.flickr)])
  let importerArgs := if p.picasa = "" then importerArgs
    else sset importerArgs "picasa" (JVal.obj [("clientSecret", JVal.str p.picasa)])
  let m := if p.haveIndex then
      sset m "/importer/" (JVal.obj [("handler", JVal.str "importer"), ("handlerArgs", JVal.obj importerArgs)])
    else m
  let m := if p.shareHandlerPath = "" then m
    else sset m p.shareHandlerPath
      (JVal.obj [("handler", JVal.str "share"),
                 ("handlerArgs", JVal.obj [("blobRoot", JVal.str "/bs/")])])
  let m := sset m "/sighelper/"
    (JVal.obj [("handler", JVal.str "jsonsign"),
               ("handlerArgs",
                 JVal.obj [("secretRing", JVal.str p.secretRing),
                           ("keyId", JVal.str p.keyId),
                           ("publicKeyDest", JVal.str pubKeyDest)])])
  let storageType := if p.packBlobs then "diskpacked" else "filesystem"
  let m := if p.blobPath = "" then m
    else
      sset
        (sset m "/bs/"
          (JVal.obj [("handler", JVal.str ("storage-" ++ storageType)),
                     ("handlerArgs", JVal.obj [("path", JVal.str p.blobPath)])]))
        "/cache/"
        (JVal.obj [("handler", JVal.str ("storage-" ++ storageType)),
                   ("handlerArgs", JVal.obj [("path", JVal.str (joinPath p.blobPath "/cache"))])])
  m

/-- The Go function genLowLevelPrefixes from the serverinit package
(lines 403 to 560 of the source): generates the low-level handler
topology from the derived parameters. -/
def genLowLevelPrefixes (p : configPrefixesParams) (ownerName : String) : Obj :=
  let m := genBase p ownerName
  if p.haveIndex then
    sset
      (sset
        (sset
          (sset m "/sync/" (JVal.obj [("handler", JVal.str "sync"), ("handlerArgs", JVal.obj (syncArgsOf p))]))
          "/bs-and-index/" bsAndIndexEntry)
        "/bs-and-maybe-also-index/" bsAndMaybeEntry)
      "/my-search/" (mySearchEntry p)
  else m

theorem genLowLevelPrefixes_cond (p : configPrefixesParams) (ownerName : String)
    (hI : p.haveIndex = true) :
    slookup (genLowLevelPrefixes p ownerName) "/bs-and-maybe-also-index/" = some bsAndMaybeEntry := by
  unfold genLowLevelPrefixes
  rw [hI]
  simp only [if_true]
  rw [slookup_sset_ne _ _ _ _ (by decide), slookup_sset_self]

theorem genLowLevelPrefixes_replica (p : configPrefixesParams) (ownerName : String)
    (hI : p.haveIndex = true) :
    slookup (genLowLevelPrefixes p ownerName) "/bs-and-index/" = some bsAndIndexEntry := by
  unfold genLowLevelPrefixes
  rw [hI]
  simp only [if_true]
  rw [slookup_sset_ne _ _ _ _ (by decide), slookup_sset_ne _ _ _ _ (by decide),
      slookup_sset_self]

/-- Modelled from the spec: a share claim schema blob, with the wire
fields of spec section 6; camliSig is the detached signature. -/
structure Claim where
  camliVersion : Nat
  authType : String
  camliSigner : Addr
  camliType : String
  claimDate : String
  claimType : String
  target : Addr
  transitive : Bool
  camliSig : String
deriving DecidableEq, Repr

/-- Modelled from the spec: a file descriptor schema blob, with the fields
shown in the sharing walkthrough of the source docs. -/
structure FileDesc where
  fileName : String
  contentParts : List (Addr × Nat)
  size : Nat
  unixGroup : String
  unixGroupId : Nat
  unixMtime : String
  unixOwner : String
  unixOwnerId : Nat
  unixPermission : String
deriving DecidableEq, Repr

/-- Modelled from the spec: a blob is an immutable byte sequence; schema
blobs are already shown in parsed form (claims and file descriptors),
other blobs are raw bytes. -/
inductive Blob where
  | raw (bytes : Bytes)
  | claim (c : Claim)
  | file (fd : FileDesc)
deriving DecidableEq, Repr

/-- Modelled from the spec: the internal denial taxonomy of the share
authorizer (spec section 7); none of these reasons may be visible to the
caller. -/
inductive DenyReason where
  | blobMissing
  | malformedClaim
  | signatureInvalid
  | wrongClaimType
  | unsupportedAuthType
  | directMismatch
  | notTransitive
  | chainBroken
deriving DecidableEq, Repr

/-- Modelled from the spec: the outcome of the share authorizer state
machine (spec section 4.5). -/
inductive ShareResult where
  | authorized
  | denied (r : DenyReason)
deriving DecidableEq, Repr

def isDenied : ShareResult → Bool
  | ShareResult.authorized => false
  | ShareResult.denied _ => true

/-- Modelled from the spec: whether a blob contains a structural reference
to an address; only schema types on the allowlist of referencing types may
serve as interior hops (spec section 4.5, step 3): a file descriptor
references the blobs in its part list, a share claim references its
target, raw bytes reference nothing. -/
def references (b : Blob) (a : Addr) : Bool :=
  match b with
  | Blob.file fd => fd.contentParts.any (fun pt => pt.1 = a)
  | Blob.claim c => c.target = a
  | Blob.raw _ => false

/-- Modelled from the spec: walk consecutive chain hops, requiring each
blob to resolve and to structurally reference the next address (spec
section 4.5, step 3). -/
def chainPairs (store : Addr → Option Blob) : List Addr → Bool
  | [] => true
  | [_] => true
  | a :: b :: rest =>
    (match store a with
     | some blob => references blob b
     | none => false) && chainPairs store (b :: rest)

/-- Modelled from the spec: a via chain is valid when it starts at the
claim target and every hop structurally references the next one (spec
section 4.5, step 3). -/
def chainOK (store : Addr → Option Blob) (target : Addr) (chain : List Addr) : Bool :=
  (chain.head? = some target : Bool) && chainPairs store chain

/-- Modelled from the spec: the share authorizer state machine of spec
section 4.5.  Steps: entry resolution (fetch, parse and verify the claim,
claimType share, authType haveref), the direct case for an empty via
list, the transitivity gate, and the chain walk.  The signature check is
the injected verification capability of spec section 4.4. -/
def authorize (store : Addr → Option Blob) (verify : Claim → Bool)
    (entry requested : Addr) (via : List Addr) : ShareResult :=
  match store entry with
  | none => ShareResult.denied DenyReason.blobMissing
  | some b =>
    match b with
    | Blob.claim c =>
      if c.camliType ≠ "claim" then ShareResult.denied DenyReason.malformedClaim
      else if ¬ verify c then ShareResult.denied DenyReason.signatureInvalid
      else if c.claimType ≠ "share" then ShareResult.denied DenyReason.wrongClaimType
      else if c.authType ≠ "haveref" then ShareResult.denied DenyReason.unsupportedAuthType
      else
        match via with
        | [] =>
          if requested = c.target ∨ requested = entry then ShareResult.authorized
          else ShareResult.denied DenyReason.directMismatch
        | v0 :: rest =>
          if ¬ c.transitive then ShareResult.denied DenyReason.notTransitive
          else if v0 ≠ entry then ShareResult.denied DenyReason.chainBroken
          else if chainOK store c.target (rest ++ [requested]) then ShareResult.authorized
          else ShareResult.denied DenyReason.chainBroken
    | _ => ShareResult.denied DenyReason.malformedClaim

/-- Modelled from the spec: the entry claim reference of a share request;
with an empty via list the requested address itself must be the share
claim, otherwise the via list begins with the entry claim (spec sections
4.5 and 6). -/
def entryOf (requested : Addr) (via : List Addr) : Addr :=
  match via with
  | [] => requested
  | v0 :: _ => v0

/-- Modelled from the spec: the externally visible response of the share
endpoint; every denial is the single uniform Unauthorized class with no
distinguishing detail (spec sections 4.5 step 6 and 7). -/
inductive Response where
  | ok (b : Blob)
  | unauthorized
deriving DecidableEq, Repr

/-- Modelled from the spec: the share endpoint; on Authorized it serves
the requested blob, every failure collapses to Unauthorized before leaving
the authorizer (spec sections 4.5 and 6). -/
def serve (store : Addr → Option Blob) (verify : Claim → Bool)
    (requested : Addr) (via : List Addr) : Response :=
  match authorize store verify (entryOf requested via) requested via with
  | ShareResult.authorized =>
    match store requested with
    | some b => Response.ok b
    | none => Response.unauthorized
  | ShareResult.denied _ => Response.unauthorized

/-- Modelled from the spec: the timing-uniform response gate records the
request start time and delays any Unauthorized response until at least the
fixed floor has elapsed since start; Authorized responses are sent when
ready (spec section 4.6).  Returns the send time in milliseconds. -/
def timingGate (floorMs start finish : Nat) (r : Response) : Nat :=
  match r with
  | Response.unauthorized => max finish (start + floorMs)
  | Response.ok _ => finish

/-- The blob holding the file bytes in the sharing walkthrough. -/
def contentRef : Addr := "sha1-3dc1d1cfe92fce5f09d194ba73a0b023102c9b25"

/-- The file descriptor blob in the sharing walkthrough. -/
def metaRef : Addr := "sha1-0e5e60f367cc8156ae48198c496b2b2ebdf5313d"

/-- The share claim blob in the sharing walkthrough. -/
def shareRef : Addr := "sha1-102758fb54521cb6540d256098e7c0f1625b33e3"

/-- The signer public key blob in the sharing walkthrough. -/
def signerRef : Addr := "sha1-3bee195d0dada92a9d88e67f731124238e65a916"

/-- The share claim of the sharing walkthrough, with the field values of
the claim JSON shown in the source docs. -/
def docClaim : Claim :=
  { camliVersion := 1
    authType := "haveref"
    camliSigner := signerRef
    camliType := "claim"
    claimDate := "2013-06-24T14:17:02.791613849Z"
    claimType := "share"
    target := metaRef
    transitive := true
    camliSig := "wsBcBAABCAAQBQJRyFTeCRApy/NNAr6GZgAAKmgIAGbCCn1YPoZuqz+mcMaLN09J3rJYZPnjICp9at9UL7fFJ6izzDFLi6gq9ae/Kou51VRnuLYvRXGvqgZ9HCTTJiGaET8I6c3gBvQWMC/NOS/B9Y+CcZ5qEsz84Dk2D6zMIC9adQjN4yjtcsVtKYDVDQ5SCkCE6sOaUebGBS22TOhZMXPalIyzf2EPSiXdeEKtsMwg+sbd4EmpQHeE3XqzI8gbcsUX6VdCp6zU81Y71pNuYdmEVBPY5gVch2Xe1gJQICOatiAi4W/1nrTLB73sKEeulzRMbIDB4rgWooKKmnBPI1ZOTyg/fkKmfWfuJKSU0ySiPwVHn4aPFwCGrBRladE==KjfB" }

/-- The file descriptor of the sharing walkthrough, whose first content
part is the file bytes blob, 14 bytes. -/
def docFile : FileDesc :=
  { fileName := "Hi.txt"
    contentParts := [(contentRef, 14)]
    size := 14
    unixGroup := "camli"
    unixGroupId := 1000
    unixMtime := "2011-01-26T21:11:22.152868825Z"
    unixOwner := "camli"
    unixOwnerId := 1000
    unixPermission := "0644" }

/-- The bytes of Hi.txt in the sharing walkthrough: 14 bytes including
the trailing newline, matching the size fields of the file descriptor. -/
def docContent : Bytes := "Hello, Camli!\n"

/-- The private blobserver of the sharing walkthrough. -/
def docStore : Addr → Option Blob := fun a =>
  if a = shareRef then some (Blob.claim docClaim)
  else if a = metaRef then some (Blob.file docFile)
  else if a = contentRef then some (Blob.raw docContent)
  else none

/-- Modelled from the spec: in the walkthrough the claim signature
verifies against the signer public key blob; the cryptographic check
itself is outside the embedding. -/
def docVerify : Claim → Bool := fun _ => true

/-- Modelled from the spec: a persisted sync queue entry
(spec section 3). -/
structure SyncQueueEntry where
  ref : Addr
  enqueuedAt : Nat
  attempts : Nat
deriving DecidableEq, Repr

/-- Modelled from the spec: the state owned by a SyncQueue composite: the
source backend, the destination backend and the persisted queue (spec
section 4.3). -/
structure SyncState where
  src : Backend
  dst : Backend
  queue : List SyncQueueEntry

/-- Modelled from the spec: the events a SyncQueue composite reacts to: a
successful store into the source (with the durable queue write possibly
failing), one worker copy attempt on a queue index (whose destination
store may fail), and a process restart. -/
inductive SyncOp where
  | srcStore (c : Bytes) (now : Nat) (queueWriteOk : Bool)
  | workerTry (i : Nat) (dstStoreOk : Bool)
  | restart

/-- Increment the attempts counter of the queue entry at an index. -/
def bumpAt (q : List SyncQueueEntry) (i : Nat) : List SyncQueueEntry :=
  match q[i]? with
  | some e => q.set i ⟨e.ref, e.enqueuedAt, e.attempts + 1⟩
  | none => q

/-- Modelled from the spec: one step of the SyncQueue composite (spec
section 4.3).  Enqueue appends the new entry with zero attempts; a failed
queue write fails the enqueue but not the original store.  A worker
attempt fetches the entry bytes from the source and stores them to the
destination, removing the entry only on a confirmed copy and bumping its
attempts counter on any failure.  A restart leaves the persisted queue in
place. -/
def syncStep (compute : Bytes → Addr) (s : SyncState) : SyncOp → SyncState
  | SyncOp.srcStore c now qOk =>
    let src' := (bstore compute s.src c).1
    if qOk then ⟨src', s.dst, s.queue ++ [⟨compute c, now, 0⟩]⟩
    else ⟨src', s.dst, s.queue⟩
  | SyncOp.workerTry i dOk =>
    match s.queue[i]? with
    | none => s
    | some e =>
      match bfetch s.src e.ref with
      | some b =>
        if dOk then ⟨s.src, sset s.dst e.ref b, s.queue.eraseIdx i⟩
        else ⟨s.src, s.dst, bumpAt s.queue i⟩
      | none => ⟨s.src, s.dst, bumpAt s.queue i⟩
  | SyncOp.restart => s

theorem mem_eraseIdx_or {α : Type} (l : List α) (i : Nat) (a : α) (h : a ∈ l) :
    a ∈ l.eraseIdx i ∨ l[i]? = some a := by
  induction l generalizing i with
  | nil => cases h
  | cons hd tl ih =>
    cases i with
    | zero =>
      rcases List.mem_cons.mp h with h1 | h1
      · right; simp [h1]
      · left; simpa [List.eraseIdx] using h1
    | succ i' =>
      rcases List.mem_cons.mp h with h1 | h1
      · left; simp [List.eraseIdx, h1]
      · rcases ih i' h1 with h2 | h2
        · left; simp [List.eraseIdx, h2]
        · right; simpa using h2

theorem mem_set_or {α : Type} (l : List α) (i : Nat) (b a : α) (h : a ∈ l) :
    a ∈ l.set i b ∨ l[i]? = some a := by
  induction l generalizing i with
  | nil => cases h
  | cons hd tl ih =>
    cases i with
    | zero =>
      rcases List.mem_cons.mp h with h1 | h1
      · right; simp [h1]
      · left; simp [List.set, h1]
    | succ i' =>
      rcases List.mem_cons.mp h with h1 | h1
      · left; simp [List.set, h1]
      · rcases ih i' h1 with h2 | h2
        · left; simp [List.set, h2]
        · right; simpa using h2

theorem getElem?_set_self {α : Type} (l : List α) (i : Nat) (b : α)
    (h : i < l.length) : (l.set i b)[i]? = some b := by
  induction l generalizing i with
  | nil => simp at h
  | cons hd tl ih =>
    cases i with
    | zero => simp [List.set]
    | succ i' =>
      have h' : i' < tl.length := by simpa using h
      simp [List.set, ih i' h']

theorem mem_set_self {α : Type} (l : List α) (i : Nat) (b : α)
    (h : i < l.length) : b ∈ l.set i b := by
  induction l generalizing i with
  | nil => simp at h
  | cons hd tl ih =>
    cases i with
    | zero => simp [List.set]
    | succ i' =>
      have h' : i' < tl.length := by simpa using h
      simp [List.set]
      right
      exact ih i' h'

/-- The cache-busting version number of the picasa importer code
(picasa.go line 52); recorded on the account permanode when a run
finishes without errors. -/
def runCompleteVersion : String := "1"

/-- Go filepath.Ext for the photo file names handled by the importer:
the suffix starting at the final dot, empty when there is no dot. -/
def fileExt (s : String) : String :=
  let ps := s.splitOn "."
  if ps.length ≤ 1 then "" else "." ++ ps.getLastD ""

/-- The data driving one photo iteration of importAlbum (picasa.go lines
228 to 277): the cancellation flag checked at the top of the iteration,
the photo file name, the camliPath attribute already on the album node
(empty when absent), whether that attribute parses as a ref, whether
fetching the photo node failed, the dateModified attribute on the photo
node, the RFC 3339 form of the remote update time, and the outcomes of
importPhoto and of the album SetAttr call. -/
structure PhotoInfo where
  cancelBefore : Bool
  filename : String
  attrRef : String
  parseOk : Bool
  objErr : Bool
  nodeModtime : String
  remoteModtime : String
  importOk : Bool
  setAttrOk : Bool
deriving DecidableEq, Repr

/-- The skip decision of importAlbum (picasa.go lines 236 to 265): a photo
is skipped only when an existing ref attribute resolves to a photo node
whose modtime matches the remote one, or whose modtime differs but the
file is a video. -/
def shouldSkip (p : PhotoInfo) : Bool :=
  if p.attrRef = "" then false
  else if ¬ p.parseOk then false
  else if p.objErr then false
  else if p.nodeModtime = "" then false
  else if p.nodeModtime = p.remoteModtime then true
  else if fileExt p.filename = ".mp4" ∨ fileExt p.filename = ".m4v" then true
  else false

/-- A photo iteration that records an error through run.errorf: the photo
was not skipped and either importPhoto or the album SetAttr failed
(picasa.go lines 267 to 277). -/
def photoFailed (p : PhotoInfo) : Bool :=
  !shouldSkip p && (!p.importOk || !p.setAttrOk)

/-- The photo loop of importAlbum (picasa.go lines 228 to 278), threading
the shared anyErr flag: a cancelled context aborts the album with an
error, a skipped photo changes nothing, a failed import or attribute set
records the error through errorf and continues with the remaining
photos. -/
def photosLoop (anyErr : Bool) : List PhotoInfo → Except String Bool
  | [] => Except.ok anyErr
  | p :: rest =>
    if p.cancelBefore then Except.error "context canceled"
    else if shouldSkip p then photosLoop anyErr rest
    else if ¬ p.importOk then photosLoop true rest
    else if ¬ p.setAttrOk then photosLoop true rest
    else photosLoop anyErr rest

/-- The data driving one album iteration of importAlbums (picasa.go lines
187 to 194 and 198 to 223): the cancellation flag, the outcomes of
ChildPathObject, SetAttrs and GetPhotos, and the photos of the album. -/
structure AlbumInfo where
  cancelBefore : Bool
  childPathOk : Bool
  setAttrsOk : Bool
  getPhotosOk : Bool
  photos : List PhotoInfo
deriving Repr

/-- importAlbum (picasa.go lines 198 to 281): any failure before the
photo loop aborts the album with an error; the photo loop then threads
the anyErr flag. -/
def importAlbum (anyErr : Bool) (a : AlbumInfo) : Except String Bool :=
  if ¬ a.childPathOk then Except.error "importAlbum: error listing album"
  else if ¬ a.setAttrsOk then Except.error "error setting album attributes"
  else if ¬ a.getPhotosOk then Except.error "error getting photos"
  else photosLoop anyErr a.photos

/-- The album loop of importAlbums (picasa.go lines 187 to 194): a
cancelled context or a failing importAlbum aborts the whole run with an
error. -/
def albumsLoop (anyErr : Bool) : List AlbumInfo → Except String Bool
  | [] => Except.ok anyErr
  | a :: rest =>
    if a.cancelBefore then Except.error "context canceled"
    else
      match importAlbum anyErr a with
      | Except.error e => Except.error ("picasa importer: error importing album: " ++ e)
      | Except.ok anyErr' => albumsLoop anyErr' rest

/-- The data driving one importer run (picasa.go Run and importAlbums):
whether listing the albums succeeded, and the albums.  The error returned
by getTopLevelNode is ignored in the source (picasa.go line 186), so it
does not appear here. -/
structure RunInfo where
  getAlbumsOk : Bool
  albums : List AlbumInfo
deriving Repr

/-- importAlbums (picasa.go lines 181 to 196): a failure to list albums
aborts the run, otherwise the albums are imported in order with the
shared anyErr flag starting clear. -/
def importAlbums (inp : RunInfo) : Except String Bool :=
  if ¬ inp.getAlbumsOk then Except.error "importAlbums: error listing albums"
  else albumsLoop false inp.albums

/-- Run (picasa.go lines 145 to 179): returns the run result together
with whether the AcctAttrCompletedVersion = runCompleteVersion marker was
written onto the account node, which happens exactly when importAlbums
returned nil and the shared anyErr flag stayed clear.  The SetAttrs call
that writes the marker is modelled as succeeding. -/
def picasaRun (inp : RunInfo) : Except String Unit × Bool :=
  match importAlbums inp with
  | Except.error e => (Except.error e, false)
  | Except.ok anyErr =>
    if ¬ anyErr then (Except.ok (), true) else (Except.ok (), false)

theorem photosLoop_ok (ps : List PhotoInfo) (acc b : Bool)
    (h : photosLoop acc ps = Except.ok b) :
    b = (acc || ps.any photoFailed) := by
  induction ps generalizing acc with
  | nil =>
    simp only [photosLoop] at h
    cases h
    simp
  | cons p rest ih =>
    by_cases hc : p.cancelBefore
    · simp [photosLoop, hc] at h
    · by_cases hs : shouldSkip p
      · have := ih acc (by simpa [photosLoop, hc, hs] using h)
        simp [List.any_cons, photoFailed, hs, this]
      · by_cases hi : p.importOk
        · by_cases ha : p.setAttrOk
          · have := ih acc (by simpa [photosLoop, hc, hs, hi, ha] using h)
            simp [List.any_cons, photoFailed, hs, hi, ha, this]
          · have := ih true (by simpa [photosLoop, hc, hs, hi, ha] using h)
            simp [List.any_cons, photoFailed, hs, hi, ha, this]
        · have := ih true (by simpa [photosLoop, hc, hs, hi] using h)
          simp [List.any_cons, photoFailed, hs, hi, this]

theorem albumsLoop_ok (as : List AlbumInfo) (acc b : Bool)
    (h : albumsLoop acc as = Except.ok b) :
    b = (acc || as.any (fun a => a.photos.any photoFailed)) := by
  induction as generalizing acc with
  | nil =>
    simp only [albumsLoop] at h
    cases h
    simp
  | cons a rest ih =>
    by_cases hc : a.cancelBefore
    · simp [albumsLoop, hc] at h
    · by_cases h1 : a.childPathOk
      · by_cases h2 : a.setAttrsOk
        · by_cases h3 : a.getPhotosOk
          · rcases hphotos : photosLoop acc a.photos with e | b'
            · simp [albumsLoop, hc, importAlbum, h1, h2, h3, hphotos] at h
            · have hb' := photosLoop_ok a.photos acc b' hphotos
              have hrest : albumsLoop b' rest = Except.ok b := by
                simpa [albumsLoop, hc, importAlbum, h1, h2, h3, hphotos] using h
              have := ih b' hrest
              simp [List.any_cons, this, hb', Bool.or_assoc]
          · simp [albumsLoop, hc, importAlbum, h1, h2, h3] at h
        · simp [albumsLoop, hc, importAlbum, h1, h2] at h
      · simp [albumsLoop, hc, importAlbum, h1] at h

/-- Modelled from the spec: a share claim identical to the walkthrough
claim except that transitive is false, for exercising the transitivity
gate. -/
def ntClaim : Claim :=
  { camliVersion := 1
    authType := "haveref"
    camliSigner := signerRef
    camliType := "claim"
    claimDate := "2013-06-24T14:17:02.791613849Z"
    claimType := "share"
    target := metaRef
    transitive := false
    camliSig := "nontransitive-sig" }

/-- The walkthrough store with the non-transitive claim in place of the
transitive one. -/
def ntStore : Addr → Option Blob := fun a =>
  if a = shareRef then some (Blob.claim ntClaim)
  else if a = metaRef then some (Blob.file docFile)
  else if a = contentRef then some (Blob.raw docContent)
  else none

/-- A share claim whose authType is not haveref, for exercising the
authType dispatch. -/
def pwClaim : Claim :=
  { camliVersion := 1
    authType := "password"
    camliSigner := signerRef
    camliType := "claim"
    claimDate := "2013-06-24T14:17:02.791613849Z"
    claimType := "share"
    target := metaRef
    transitive := true
    camliSig := "password-sig" }

/-- A store holding only the password-authType claim. -/
def pwStore : Addr → Option Blob := fun a =>
  if a = shareRef then some (Blob.claim pwClaim) else none

/-- The empty blob store. -/
def emptyBlobStore : Addr → Option Blob := fun _ => none

/-- C1: in the concrete share scenario of the walkthrough, a GET of the
share claim address with no via parameter returns the claim blob, a GET
of the claim target with via naming the claim returns the file
descriptor, and a GET of the file bytes address with via naming the claim
and the descriptor returns the 14 bytes of Hi.txt, because the file
descriptor's first content part structurally references the bytes blob
and the claim is transitive. -/
theorem C1_share_walkthrough :
    serve docStore docVerify shareRef [] = Response.ok (Blob.claim docClaim)
    ∧ serve docStore docVerify metaRef [shareRef] = Response.ok (Blob.file docFile)
    ∧ serve docStore docVerify contentRef [shareRef, metaRef] = Response.ok (Blob.raw docContent)
    ∧ docContent = "Hello, Camli!\n"
    ∧ docContent.length = 14
    ∧ docFile.contentParts.head? = some (contentRef, 14)
    ∧ docClaim.target = metaRef
    ∧ docClaim.transitive = true := by
  refine ⟨?_, ?_, ?_, rfl, rfl, rfl, rfl, rfl⟩ <;> rfl

/-- C2: when the entry claim has transitive set to false, only the
direct case succeeds: requesting the claim target or the claim blob
itself with an empty via list is Authorized, and every request carrying a
non-empty via list is Denied, whatever the chain. -/
theorem C2_nontransitive_gate (store : Addr → Option Blob) (verify : Claim → Bool)
    (entry requested : Addr) (c : Claim) (via : List Addr)
    (hstore : store entry = some (Blob.claim c))
    (hver : verify c = true)
    (hty : c.camliType = "claim")
    (hcl : c.claimType = "share")
    (hau : c.authType = "haveref")
    (htr : c.transitive = false) :
    authorize store verify entry c.target [] = ShareResult.authorized
    ∧ authorize store verify entry entry [] = ShareResult.authorized
    ∧ (via ≠ [] → isDenied (authorize store verify entry requested via) = true) := by
  refine ⟨?_, ?_, ?_⟩
  · simp [authorize, hstore, hty, hver, hcl, hau]
  · simp [authorize, hstore, hty, hver, hcl, hau]
  · intro hvia
    cases via with
    | nil => exact absurd rfl hvia
    | cons v0 rest =>
      simp [authorize, hstore, hty, hver, hcl, hau, htr, isDenied]

/-- Witness for C2: a concrete non-transitive claim, with a via chain
that would be structurally valid under the transitive claim. -/
theorem C2_nontransitive_gate_witness :
    authorize ntStore docVerify shareRef ntClaim.target [] = ShareResult.authorized
    ∧ authorize ntStore docVerify shareRef shareRef [] = ShareResult.authorized
    ∧ isDenied (authorize ntStore docVerify shareRef contentRef [shareRef, metaRef]) = true := by
  have h := C2_nontransitive_gate ntStore docVerify shareRef contentRef ntClaim
    [shareRef, metaRef] rfl rfl rfl rfl rfl rfl
  exact ⟨h.1, h.2.1, h.2.2 (by simp)⟩

/-- C3: any two share requests that are Denied for different internal
reasons produce exactly the same external response: the single uniform
Unauthorized class, with no distinguishing detail. -/
theorem C3_uniform_denial
    (s1 : Addr → Option Blob) (v1 : Claim → Bool) (q1 : Addr) (via1 : List Addr) (r1 : DenyReason)
    (s2 : Addr → Option Blob) (v2 : Claim → Bool) (q2 : Addr) (via2 : List Addr) (r2 : DenyReason)
    (h1 : authorize s1 v1 (entryOf q1 via1) q1 via1 = ShareResult.denied r1)
    (h2 : authorize s2 v2 (entryOf q2 via2) q2 via2 = ShareResult.denied r2) :
    serve s1 v1 q1 via1 = serve s2 v2 q2 via2
    ∧ serve s1 v1 q1 via1 = Response.unauthorized := by
  unfold serve
  rw [h1, h2]
  exact ⟨rfl, rfl⟩

/-- Witness for C3: a denial for a missing blob and a denial for an
unsupported authType yield identical Unauthorized responses. -/
theorem C3_uniform_denial_witness :
    authorize emptyBlobStore docVerify (entryOf metaRef []) metaRef []
      = ShareResult.denied DenyReason.blobMissing
    ∧ authorize pwStore docVerify (entryOf metaRef [shareRef]) metaRef [shareRef]
      = ShareResult.denied DenyReason.unsupportedAuthType
    ∧ serve emptyBlobStore docVerify metaRef [] = serve pwStore docVerify metaRef [shareRef]
    ∧ serve emptyBlobStore docVerify metaRef [] = Response.unauthorized := by
  have h := C3_uniform_denial emptyBlobStore docVerify metaRef [] DenyReason.blobMissing
    pwStore docVerify metaRef [shareRef] DenyReason.unsupportedAuthType rfl rfl
  exact ⟨rfl, rfl, h.1, h.2⟩

/-- C4: through the timing gate, every Unauthorized response is sent no
earlier than the fixed floor after request start, however fast or slow
the denial was determined, while Authorized responses are sent as soon as
they are ready with no artificial delay. -/
theorem C4_timing_floor (floorMs start finish : Nat) (store : Addr → Option Blob)
    (verify : Claim → Bool) (requested : Addr) (via : List Addr) :
    (serve store verify requested via = Response.unauthorized →
      start + floorMs ≤ timingGate floorMs start finish (serve store verify requested via))
    ∧ (∀ b, serve store verify requested via = Response.ok b →
      timingGate floorMs start finish (serve store verify requested via) = finish) := by
  constructor
  · intro h
    rw [h]
    exact le_max_right _ _
  · intro b h
    rw [h]
    rfl

/-- Witness for C4: a fast denial (missing claim, determination time 5)
is delayed to the 200 ms floor, and an authorized request is not
delayed. -/
theorem C4_timing_floor_witness :
    0 + 200 ≤ timingGate 200 0 5 (serve emptyBlobStore docVerify metaRef [])
    ∧ timingGate 200 0 5 (serve docStore docVerify shareRef []) = 5 := by
  constructor
  · exact (C4_timing_floor 200 0 5 emptyBlobStore docVerify metaRef []).1 rfl
  · exact (C4_timing_floor 200 0 5 docStore docVerify shareRef []).2 (Blob.claim docClaim) rfl

/-- C5: for every byte content, Store returns the computed content
address, Fetch of that address returns the content, and a second Store of
the same content returns the same address and leaves the backend state
exactly as after the first Store, with no observable duplicate. -/
theorem C5_store_fetch_idempotent (compute : Bytes → Addr) (b : Backend) (c : Bytes) :
    (bstore compute b c).2 = compute c
    ∧ bfetch (bstore compute b c).1 (compute c) = some c
    ∧ (bstore compute (bstore compute b c).1 c).2 = (bstore compute b c).2
    ∧ (bstore compute (bstore compute b c).1 c).1 = (bstore compute b c).1 := by
  refine ⟨rfl, ?_, rfl, ?_⟩
  · exact slookup_sset_self b (compute c) c
  · exact sset_sset_self b (compute c) c

/-- Sample derived parameters with the index enabled. -/
def sampleParams : configPrefixesParams :=
  { secretRing := "/home/camli/secring.gpg"
    keyId := "26F5ABDA"
    haveIndex := true
    haveSQLite := false
    blobPath := "/home/camli/blobs"
    packBlobs := false
    searchOwner := "sha1-f9a50b840611cf5b02c20a42a6c482e0353d9d01"
    shareHandlerPath := "/share/"
    flickr := ""
    picasa := ""
    memoryIndex := false
    indexFileDir := "" }

/-- A sample schema predicate over blob bytes. -/
def samplePred : Bytes → Bool := fun s => s = "schema"

/-- A sample content address function. -/
def sampleCompute : Bytes → Addr := fun s => "addr-" ++ s

/-- Empty named backends. -/
def sampleStores : String → Backend := fun _ => []

/-- C6: a conditional Store routes a blob satisfying the predicate to the
then backend and any other blob to the else backend, as a pure function
of the bytes alone, leaving every other backend unchanged; Fetch always
delegates to the read backend; and in the topology generated by
genLowLevelPrefixes with an index the predicate is isSchema, the then
backend is /bs-and-index/, the else backend is /bs/ and the read backend
is /bs/. -/
theorem C6_conditional_routing (pred : Bytes → Bool) (thenB elseB readB : String)
    (compute : Bytes → Addr) (σ : String → Backend) (c : Bytes) (n : String) (a : Addr)
    (p : configPrefixesParams) (ownerName : String) (hI : p.haveIndex = true) :
    (pred c = true →
      condStore pred thenB elseB compute σ c thenB = sset (σ thenB) (compute c) c)
    ∧ (pred c = false →
      condStore pred thenB elseB compute σ c elseB = sset (σ elseB) (compute c) c)
    ∧ (n ≠ condRoute pred thenB elseB c → condStore pred thenB elseB compute σ c n = σ n)
    ∧ condFetch readB (condStore pred thenB elseB compute σ c) a
        = bfetch (condStore pred thenB elseB compute σ c readB) a
    ∧ jpathGet (slookup (genLowLevelPrefixes p ownerName) "/bs-and-maybe-also-index/")
        ["handlerArgs", "write", "if"] = some (JVal.str "isSchema")
    ∧ jpathGet (slookup (genLowLevelPrefixes p ownerName) "/bs-and-maybe-also-index/")
        ["handlerArgs", "write", "then"] = some (JVal.str "/bs-and-index/")
    ∧ jpathGet (slookup (genLowLevelPrefixes p ownerName) "/bs-and-maybe-also-index/")
        ["handlerArgs", "write", "else"] = some (JVal.str "/bs/")
    ∧ jpathGet (slookup (genLowLevelPrefixes p ownerName) "/bs-and-maybe-also-index/")
        ["handlerArgs", "read"] = some (JVal.str "/bs/") := by
  refine ⟨?_, ?_, ?_, rfl, ?_, ?_, ?_, ?_⟩
  · intro h
    simp [condStore, condRoute, h]
  · intro h
    simp [condStore, condRoute, h]
  · intro h
    simp [condStore, h]
  · rw [genLowLevelPrefixes_cond p ownerName hI]; rfl
  · rw [genLowLevelPrefixes_cond p ownerName hI]; rfl
  · rw [genLowLevelPrefixes_cond p ownerName hI]; rfl
  · rw [genLowLevelPrefixes_cond p ownerName hI]; rfl

/-- Witness for C6: concrete routing of a schema blob and of a raw blob,
and the generated sample topology. -/
theorem C6_conditional_routing_witness :
    condStore samplePred "/bs-and-index/" "/bs/" sampleCompute sampleStores "schema" "/bs-and-index/"
      = sset (sampleStores "/bs-and-index/") (sampleCompute "schema") "schema"
    ∧ condStore samplePred "/bs-and-index/" "/bs/" sampleCompute sampleStores "other" "/bs/"
      = sset (sampleStores "/bs/") (sampleCompute "other") "other"
    ∧ jpathGet (slookup (genLowLevelPrefixes sampleParams "Alice") "/bs-and-maybe-also-index/")
        ["handlerArgs", "write", "if"] = some (JVal.str "isSchema") := by
  refine ⟨?_, ?_, ?_⟩
  · exact (C6_conditional_routing samplePred "/bs-and-index/" "/bs/" "/bs/" sampleCompute
      sampleStores "schema" "" "addr" sampleParams "Alice" rfl).1 rfl
  · exact (C6_conditional_routing samplePred "/bs-and-index/" "/bs/" "/bs/" sampleCompute
      sampleStores "other" "" "addr" sampleParams "Alice" rfl).2.1 rfl
  · exact (C6_conditional_routing samplePred "/bs-and-index/" "/bs/" "/bs/" sampleCompute
      sampleStores "other" "" "addr" sampleParams "Alice" rfl).2.2.2.2.1

/-- C7: when a strict subset of the replica children fails (including by
timeout), the store returns PartialReplicaFailure — the blob is not
reported durably stored — while every succeeding child keeps the bytes it
wrote and every failing child is untouched: no rollback and no repair. -/
theorem C7_partial_replica_failure (compute : Bytes → Addr) (children : List Backend)
    (fails : Nat → Bool) (c : Bytes) (i j : Nat)
    (hi : i < children.length) (hj : j < children.length)
    (hfi : fails i = true) (hfj : fails j = false) :
    (replicaStore compute children fails c).2 = ReplicaOutcome.partialReplicaFailure
    ∧ ∀ k, ((replicaStore compute children fails c).1)[k]? =
        (children[k]?).map (fun b => if fails k then b else sset b (compute c) c) := by
  constructor
  · have hany : (List.range children.length).any (fun x => fails x) = true := by
      rw [List.any_eq_true]
      exact ⟨i, List.mem_range.mpr hi, hfi⟩
    have hall : (List.range children.length).all (fun x => fails x) = false := by
      apply Bool.eq_false_iff.mpr
      intro hall
      have := List.all_eq_true.mp hall j (List.mem_range.mpr hj)
      simp [hfj] at this
    simp [replicaStore, hany, hall]
  · intro k
    have h := replicaWrite_getElem compute c fails 0 children k
    simpa [replicaStore] using h

/-- Two empty child backends. -/
def sampleChildren : List Backend := [[], []]

/-- Witness for C7: two children, the first fails, the second succeeds:
a partial failure whose surviving write stays in place. -/
theorem C7_partial_replica_failure_witness :
    (replicaStore sampleCompute sampleChildren (fun i => i == 0) "blob").2
      = ReplicaOutcome.partialReplicaFailure
    ∧ ((replicaStore sampleCompute sampleChildren (fun i => i == 0) "blob").1)[1]?
      = some (sset [] (sampleCompute "blob") "blob") := by
  have h := C7_partial_replica_failure sampleCompute sampleChildren (fun i => i == 0)
    "blob" 0 1 (by decide) (by decide) (by decide) (by decide)
  refine ⟨h.1, ?_⟩
  rw [h.2 1]
  rfl

theorem lt_length_of_getElem?_eq_some {α : Type} {l : List α} {i : Nat} {a : α}
    (h : l[i]? = some a) : i < l.length := by
  by_contra hc
  rw [List.getElem?_eq_none (Nat.le_of_not_lt hc)] at h
  exact Option.noConfusion h

theorem getElem?_bumpAt_self (q : List SyncQueueEntry) (i : Nat) (e : SyncQueueEntry)
    (h : q[i]? = some e) :
    (bumpAt q i)[i]? = some ⟨e.ref, e.enqueuedAt, e.attempts + 1⟩ := by
  unfold bumpAt
  rw [h]
  exact getElem?_set_self q i _ (lt_length_of_getElem?_eq_some h)

/-- C8: every persisted sync queue entry survives every SyncQueue step
unless the copy to the destination has been confirmed: after any enqueue,
worker attempt or restart, each entry either is still queued under the
same address with an attempts counter at least as large, or has been
removed with its blob now present in the destination backend; and a
failed copy attempt leaves the entry in place with its attempts counter
incremented by one. -/
theorem C8_sync_queue_at_least_once (compute : Bytes → Addr) (s : SyncState) (op : SyncOp) :
    (∀ e, e ∈ s.queue →
      (∃ e', e' ∈ (syncStep compute s op).queue ∧ e'.ref = e.ref ∧ e.attempts ≤ e'.attempts)
      ∨ ∃ b, bfetch (syncStep compute s op).dst e.ref = some b)
    ∧ (∀ i e dOk, s.queue[i]? = some e →
        (dOk = false ∨ bfetch s.src e.ref = none) →
        (syncStep compute s (SyncOp.workerTry i dOk)).queue[i]? =
          some ⟨e.ref, e.enqueuedAt, e.attempts + 1⟩) := by
  constructor
  · intro e he
    cases op with
    | srcStore c now qOk =>
      left
      refine ⟨e, ?_, rfl, Nat.le_refl _⟩
      cases qOk with
      | false => simpa [syncStep] using he
      | true => simp [syncStep, List.mem_append, he]
    | restart =>
      exact Or.inl ⟨e, he, rfl, Nat.le_refl _⟩
    | workerTry i dOk =>
      cases hq : s.queue[i]? with
      | none =>
        left
        exact ⟨e, by simpa [syncStep, hq] using he, rfl, Nat.le_refl _⟩
      | some e0 =>
        cases hf : bfetch s.src e0.ref with
        | some b =>
          cases dOk with
          | true =>
            have hstep : syncStep compute s (SyncOp.workerTry i true)
                = ⟨s.src, sset s.dst e0.ref b, s.queue.eraseIdx i⟩ := by
              simp [syncStep, hq, hf]
            rcases mem_eraseIdx_or s.queue i e he with hmem | hidx
            · left
              exact ⟨e, by rw [hstep]; exact hmem, rfl, Nat.le_refl _⟩
            · have heq : e = e0 := by
                rw [hq] at hidx
                exact (Option.some.injEq _ _ ▸ hidx).symm
              right
              refine ⟨b, ?_⟩
              rw [hstep, heq]
              exact slookup_sset_self s.dst e0.ref b
          | false =>
            have hstep : syncStep compute s (SyncOp.workerTry i false)
                = ⟨s.src, s.dst, bumpAt s.queue i⟩ := by
              simp [syncStep, hq, hf]
            have hbump : bumpAt s.queue i
                = s.queue.set i ⟨e0.ref, e0.enqueuedAt, e0.attempts + 1⟩ := by
              simp [bumpAt, hq]
            left
            rcases mem_set_or s.queue i ⟨e0.ref, e0.enqueuedAt, e0.attempts + 1⟩ e he with hmem | hidx
            · refine ⟨e, ?_, rfl, Nat.le_refl _⟩
              rw [hstep]
              simpa [hbump] using hmem
            · have heq : e = e0 := by
                rw [hq] at hidx
                exact (Option.some.injEq _ _ ▸ hidx).symm
              refine ⟨⟨e0.ref, e0.enqueuedAt, e0.attempts + 1⟩, ?_, by rw [heq], ?_⟩
              · have hlen := lt_length_of_getElem?_eq_some hq
                rw [hstep]
                simpa [hbump] using
                  mem_set_self s.queue i (⟨e0.ref, e0.enqueuedAt, e0.attempts + 1⟩ : SyncQueueEntry) hlen
              · rw [heq]
                exact Nat.le_succ _
        | none =>
          have hstep : syncStep compute s (SyncOp.workerTry i dOk)
              = ⟨s.src, s.dst, bumpAt s.queue i⟩ := by
            simp [syncStep, hq, hf]
          have hbump : bumpAt s.queue i
              = s.queue.set i ⟨e0.ref, e0.enqueuedAt, e0.attempts + 1⟩ := by
            simp [bumpAt, hq]
          left
          rcases mem_set_or s.queue i ⟨e0.ref, e0.enqueuedAt, e0.attempts + 1⟩ e he with hmem | hidx
          · refine ⟨e, ?_, rfl, Nat.le_refl _⟩
            rw [hstep]
            simpa [hbump] using hmem
          · have heq : e = e0 := by
              rw [hq] at hidx
              exact (Option.some.injEq _ _ ▸ hidx).symm
            refine ⟨⟨e0.ref, e0.enqueuedAt, e0.attempts + 1⟩, ?_, by rw [heq], ?_⟩
            · have hlen := lt_length_of_getElem?_eq_some hq
              rw [hstep]
              simpa [hbump] using
                mem_set_self s.queue i (⟨e0.ref, e0.enqueuedAt, e0.attempts + 1⟩ : SyncQueueEntry) hlen
            · rw [heq]
              exact Nat.le_succ _
  · intro i e dOk hq hfail
    cases hf : bfetch s.src e.ref with
    | none =>
      have hstep : (syncStep compute s (SyncOp.workerTry i dOk)).queue = bumpAt s.queue i := by
        simp [syncStep, hq, hf]
      rw [hstep]
      exact getElem?_bumpAt_self s.queue i e hq
    | some b =>
      rcases hfail with hd | hnone
      · subst hd
        have hstep : (syncStep compute s (SyncOp.workerTry i false)).queue = bumpAt s.queue i := by
          simp [syncStep, hq, hf]
        rw [hstep]
        exact getElem?_bumpAt_self s.queue i e hq
      · rw [hf] at hnone
        exact Option.noConfusion hnone

/-- A queued entry for the blob stored in the sample sync source. -/
def sampleEntry : SyncQueueEntry := ⟨"a", 0, 0⟩

/-- A sync state whose source holds one blob and whose queue holds its
entry. -/
def sampleSyncState : SyncState := ⟨[("a", "x")], [], [sampleEntry]⟩

/-- Witness for C8: a successful worker attempt confirms the copy before
removal, and a failed attempt keeps the entry with one more attempt. -/
theorem C8_sync_queue_at_least_once_witness :
    ((∃ e', e' ∈ (syncStep sampleCompute sampleSyncState (SyncOp.workerTry 0 true)).queue
        ∧ e'.ref = sampleEntry.ref ∧ sampleEntry.attempts ≤ e'.attempts)
      ∨ ∃ b, bfetch (syncStep sampleCompute sampleSyncState (SyncOp.workerTry 0 true)).dst
          sampleEntry.ref = some b)
    ∧ (syncStep sampleCompute sampleSyncState (SyncOp.workerTry 0 false)).queue[0]?
      = some ⟨sampleEntry.ref, sampleEntry.enqueuedAt, sampleEntry.attempts + 1⟩ := by
  constructor
  · exact (C8_sync_queue_at_least_once sampleCompute sampleSyncState
      (SyncOp.workerTry 0 true)).1 sampleEntry (by simp [sampleSyncState])
  · exact (C8_sync_queue_at_least_once sampleCompute sampleSyncState
      (SyncOp.workerTry 0 false)).2 0 sampleEntry false rfl (Or.inl rfl)

/-- C9: in every topology generated by genLowLevelPrefixes with an index
enabled, the conditional read backend /bs/ is included in both write
branches: the then branch /bs-and-index/ is a replica whose backend list
contains /bs/, and the else branch is /bs/ itself; consequently every
blob stored through the conditional is visible to a Fetch through its
read backend. -/
theorem C9_readback_superset (p : configPrefixesParams) (ownerName : String)
    (hI : p.haveIndex = true) :
    jpathGet (slookup (genLowLevelPrefixes p ownerName) "/bs-and-index/") ["handler"]
      = some (JVal.str "storage-replica")
    ∧ (∃ bs, jpathGet (slookup (genLowLevelPrefixes p ownerName) "/bs-and-index/")
        ["handlerArgs", "backends"] = some (JVal.arr bs) ∧ JVal.str "/bs/" ∈ bs)
    ∧ jpathGet (slookup (genLowLevelPrefixes p ownerName) "/bs-and-maybe-also-index/")
        ["handlerArgs", "write", "then"] = some (JVal.str "/bs-and-index/")
    ∧ jpathGet (slookup (genLowLevelPrefixes p ownerName) "/bs-and-maybe-also-index/")
        ["handlerArgs", "write", "else"]
      = jpathGet (slookup (genLowLevelPrefixes p ownerName) "/bs-and-maybe-also-index/")
        ["handlerArgs", "read"]
    ∧ jpathGet (slookup (genLowLevelPrefixes p ownerName) "/bs-and-maybe-also-index/")
        ["handlerArgs", "read"] = some (JVal.str "/bs/")
    ∧ ∀ (pred : Bytes → Bool) (compute : Bytes → Addr) (σ : String → Backend) (c : Bytes),
        bfetch (topoWrite pred ["/bs/", "/index/"] "/bs/" compute σ c "/bs/") (compute c)
          = some c := by
  refine ⟨?_, ?_, ?_, ?_, ?_, ?_⟩
  · rw [genLowLevelPrefixes_replica p ownerName hI]; rfl
  · rw [genLowLevelPrefixes_replica p ownerName hI]
    exact ⟨[JVal.str "/bs/", JVal.str "/index/"], rfl, List.mem_cons_self _ _⟩
  · rw [genLowLevelPrefixes_cond p ownerName hI]; rfl
  · rw [genLowLevelPrefixes_cond p ownerName hI]; rfl
  · rw [genLowLevelPrefixes_cond p ownerName hI]; rfl
  · intro pred compute σ c
    by_cases hp : pred c
    · simp [topoWrite, hp, writeTo, bfetch, slookup_sset_self]
    · simp [topoWrite, hp, writeTo, bfetch, slookup_sset_self]

/-- Witness for C9: the sample parameters with the index enabled. -/
theorem C9_readback_superset_witness :
    jpathGet (slookup (genLowLevelPrefixes sampleParams "Alice") "/bs-and-index/") ["handler"]
      = some (JVal.str "storage-replica")
    ∧ bfetch (topoWrite samplePred ["/bs/", "/index/"] "/bs/" sampleCompute sampleStores
        "schema" "/bs/") (sampleCompute "schema") = some "schema" := by
  constructor
  · exact (C9_readback_superset sampleParams "Alice" rfl).1
  · exact (C9_readback_superset sampleParams "Alice" rfl).2.2.2.2.2 samplePred sampleCompute
      sampleStores "schema"

/-- C10: the picasa Run writes the completed-version marker onto the
account node exactly when importAlbums returned nil and no per-photo
error was recorded: the shared anyErr flag reported by importAlbums is
true precisely when some non-skipped photo failed its import or its
album attribute write, each such failure is recorded through errorf and
processing continues with the remaining photos, and a recorded error
suppresses the marker. -/
theorem C10_picasa_run_marker (inp : RunInfo) :
    ((picasaRun inp).2 = true ↔ importAlbums inp = Except.ok false)
    ∧ (∀ b, importAlbums inp = Except.ok b →
        b = inp.albums.any (fun a => a.photos.any photoFailed))
    ∧ (∀ (acc : Bool) (p : PhotoInfo) (rest : List PhotoInfo),
        p.cancelBefore = false → shouldSkip p = false → p.importOk = false →
        photosLoop acc (p :: rest) = photosLoop true rest) := by
  refine ⟨?_, ?_, ?_⟩
  · cases h : importAlbums inp with
    | error e => simp [picasaRun, h]
    | ok anyErr =>
      cases anyErr with
      | false => simp [picasaRun, h]
      | true => simp [picasaRun, h]
  · intro b h
    unfold importAlbums at h
    by_cases hg : inp.getAlbumsOk
    · have hloop : albumsLoop false inp.albums = Except.ok b := by simpa [hg] using h
      simpa using albumsLoop_ok inp.albums false b hloop
    · simp [hg] at h
  · intro acc p rest hc hs hi
    simp [photosLoop, hc, hs, hi]

/-- A photo iteration whose import fails: no prior ref attribute, so no
skip, and importPhoto fails. -/
def failPhoto : PhotoInfo :=
  { cancelBefore := false
    filename := "IMG_0001.jpg"
    attrRef := ""
    parseOk := true
    objErr := false
    nodeModtime := ""
    remoteModtime := "2014-01-01T00:00:00Z"
    importOk := false
    setAttrOk := true }

/-- A run whose single album contains one failing photo. -/
def sampleRunInfo : RunInfo :=
  { getAlbumsOk := true
    albums := [{ cancelBefore := false
                 childPathOk := true
                 setAttrsOk := true
                 getPhotosOk := true
                 photos := [failPhoto] }] }

/-- Witness for C10: the failing-photo run records the error, continues,
and does not write the completed-version marker. -/
theorem C10_picasa_run_marker_witness :
    ((picasaRun sampleRunInfo).2 = true ↔ importAlbums sampleRunInfo = Except.ok false)
    ∧ true = sampleRunInfo.albums.any (fun a => a.photos.any photoFailed)
    ∧ photosLoop false (failPhoto :: []) = photosLoop true [] := by
  refine ⟨(C10_picasa_run_marker sampleRunInfo).1, ?_, ?_⟩
  · exact (C10_picasa_run_marker sampleRunInfo).2.1 true rfl
  · exact (C10_picasa_run_marker sampleRunInfo).2.2 false failPhoto [] rfl rfl rfl

end Camlistore
